import Mathlib

/-
Verification development for the english-tutor repository.

Shallow embedding of the two core modules:
  * src/utils/word_parser.py  (WordParser.parse_text, WordParser.parse_document,
    WordParser.format_words_for_display)
  * src/utils/audio_generator.py  (AudioGenerator.generate_audio and its helpers)

Strings are modelled over Lean `Char` lists; the Python string predicates
(str.strip, str.isupper, str.split, slicing) are modelled over the ASCII
character range, which covers every character class the two modules test for.
Python floats that hold the audio settings only ever carry small decimal
values (0.5 .. 10.0), so durations and speeds are modelled exactly as
rationals.  External processes (OpenAI TTS, ffmpeg) are modelled as logged
events: each text-to-speech call and each silence generation is recorded in
an explicit call log, and the final ffmpeg concat step is an abstract
function from the assembled file list to an exit code plus the optional
contents of the output file.
-/

/-- Python `\s` / `str.strip` whitespace over ASCII: space, tab, newline,
carriage return, vertical tab, form feed. -/
def isSpaceC (c : Char) : Bool :=
  c == ' ' || c == '\t' || c == '\n' || c == '\r' || c == '\x0b' || c == '\x0c'

/-- Python `\d`: ASCII decimal digit. -/
def isDigitC (c : Char) : Bool :=
  '0' ≤ c && c ≤ '9'

/-- Python `str.strip()` on a character list: drop whitespace from both ends. -/
def pyStripL (l : List Char) : List Char :=
  ((l.dropWhile isSpaceC).reverse.dropWhile isSpaceC).reverse

/-- Python `str.strip()` at the `String` boundary. -/
def pyStrip (s : String) : String :=
  (pyStripL s.data).asString

/-- Python `str.isupper()` restricted to ASCII cased characters: at least one
letter, and no lowercase letter. -/
def pyIsUpperL (l : List Char) : Bool :=
  l.any Char.isAlpha && l.all (fun c => !c.isLower)

/-- Separator test of both parsers: `re.match(r'^-+$', line)`, i.e. a nonempty
line consisting solely of `-` characters. -/
def isSepL (l : List Char) : Bool :=
  !l.isEmpty && l.all (fun c => c == '-')

/-- Category-header test of both parsers: `text.isupper() and len(text) > 2`. -/
def isHeaderL (l : List Char) : Bool :=
  pyIsUpperL l && decide (2 < l.length)

/-- Python `int()` on the digit string captured by group 1 of the word pattern. -/
def natOfDigits (l : List Char) : Nat :=
  l.foldl (fun n c => n * 10 + (c.toNat - 48)) 0

/-- Python `str.split('\n')`: splits at every newline; the empty string yields
one empty piece. -/
def splitLinesL : List Char → List (List Char)
  | [] => [[]]
  | c :: rest =>
    if c = '\n' then [] :: splitLinesL rest
    else match splitLinesL rest with
      | [] => [[c]]
      | l :: ls => (c :: l) :: ls

/-- First successful alternative, in order: the backtracking engine of the
regex fragments below tries candidate consumption lengths in the order the
Python `re` engine would. -/
def firstSome (f : Nat → Option α) : List Nat → Option α
  | [] => none
  | n :: ns =>
    match f n with
    | some r => some r
    | none => firstSome f ns

/-- List of candidate lengths a .. b in increasing order (lazy quantifier). -/
def upRange (a b : Nat) : List Nat :=
  List.range' a (b + 1 - a)

/-- List of candidate lengths b .. a in decreasing order (greedy quantifier). -/
def revRange (a b : Nat) : List Nat :=
  (upRange a b).reverse

/-- Tail fragment `\s*(.+)` of the word pattern: `\s*` is greedy, `(.+)` needs
at least one non-newline character and then extends to the end of the
non-newline run (nothing follows it in the pattern, and `re.match` does not
anchor the end).  Returns the captured group. -/
def matchTail4 (l : List Char) : Option (List Char) :=
  firstSome
    (fun n =>
      let u := l.drop n
      let g := u.takeWhile (fun c => c != '\n')
      if g.isEmpty then none else some g)
    (revRange 0 (l.takeWhile isSpaceC).length)

/-- Fragment `\s*[–-]` of the word pattern: since neither dash is whitespace,
the greedy `\s*` is deterministic here.  Returns the rest of the input. -/
def matchDash (l : List Char) : Option (List Char) :=
  match l.drop (l.takeWhile isSpaceC).length with
  | c :: rest => if c == '–' || c == '-' then some rest else none
  | [] => none

/-- Fragment `([^)]+)\)` of the word pattern: the greedy negated class run is
deterministic because backing off still demands a `)` inside the run.
Returns the captured group and the rest. -/
def matchParenContent (l : List Char) : Option (List Char × List Char) :=
  let g := l.takeWhile (fun c => c != ')')
  if g.isEmpty then none
  else match l.drop g.length with
    | ')' :: rest => some (g, rest)
    | _ => none

/-- Fragment `(.+?)\s*\(([^)]+)\)\s*[–-]\s*(.+)` starting right after the
mandatory whitespace: the lazy group grows one character at a time, and on
any downstream failure the engine moves to the next candidate, exactly as
Python backtracking does.  `g1` is the digit capture threaded through. -/
def matchFrom (g1 : List Char) (l : List Char) :
    Option (List Char × List Char × List Char × List Char) :=
  firstSome
    (fun n =>
      let g2 := l.take n
      let u := l.drop n
      match u.drop (u.takeWhile isSpaceC).length with
      | '(' :: r3 =>
        (matchParenContent r3).bind fun p =>
          (matchDash p.2).bind fun r5 =>
            (matchTail4 r5).map fun g4 => (g1, g2, p.1, g4)
      | _ => none)
    (upRange 1 (l.takeWhile (fun c => c != '\n')).length)

/-- Word pattern of both parsers,
`re.match(r'(\d+)\.\s+(.+?)\s*\(([^)]+)\)\s*[–-]\s*(.+)', line)`:
returns the four captured groups.  The leading `(\d+)\.` is deterministic
(a shorter digit run would put a digit where `\.` must match), the greedy
`\s+` backtracks. -/
def reMatchWordL (l : List Char) :
    Option (List Char × List Char × List Char × List Char) :=
  let ds := l.takeWhile isDigitC
  if ds.isEmpty then none
  else match l.drop ds.length with
    | '.' :: r1 =>
      firstSome (fun nw => matchFrom ds (r1.drop nw))
        (revRange 1 (r1.takeWhile isSpaceC).length)
    | _ => none

/-- Tail `\s*(.+)$` of the example pattern: `$` matches at the end of the
string or just before one final newline. -/
def exTail (t : List Char) : Option (List Char) :=
  firstSome
    (fun nw =>
      let u := t.drop nw
      let g := u.takeWhile (fun c => c != '\n')
      if g.isEmpty then none
      else match u.drop g.length with
        | [] => some g
        | ['\n'] => some g
        | _ => none)
    (revRange 0 (t.takeWhile isSpaceC).length)

/-- Example pattern of both parsers,
`re.match(r'^ex:\s*(.+)$', line, re.IGNORECASE)`: returns group 1. -/
def exampleMatchL (l : List Char) : Option (List Char) :=
  match l with
  | a :: b :: c :: rest =>
    if (a == 'e' || a == 'E') && (b == 'x' || b == 'X') && c == ':' then
      exTail rest
    else none
  | _ => none

/-- Python `line.lower().startswith('ex:')` (ASCII lowering only affects the
two letters). -/
def startsWithExCIL (l : List Char) : Bool :=
  match l with
  | a :: b :: c :: _ =>
    (a == 'e' || a == 'E') && (b == 'x' || b == 'X') && c == ':'
  | _ => false

/-- Python `polish_text.lower().find('ex:')`: index of the first
case-insensitive occurrence of `ex:`, if any. -/
def findExPos : List Char → Option Nat
  | a :: b :: c :: rest =>
    if (a == 'e' || a == 'E') && (b == 'x' || b == 'X') && c == ':' then some 0
    else (findExPos (b :: c :: rest)).map (· + 1)
  | _ => none

/-- One parsed vocabulary entry, the dict built by both parsers with keys
number / english / pronunciation / polish / example / category.  The Python
key `example` is rendered as `exampleField` because `example` is a Lean
keyword; `example = None` is `none`, `example = ''` is `some ""`. -/
structure VocabWord where
  number : Nat
  english : String
  pronunciation : String
  polish : String
  exampleField : Option String
  category : Option String
deriving DecidableEq, Repr

/-- Mutable scan state of both parsers: the accumulated output list, the
sticky current category, and the in-progress record awaiting its example. -/
structure ParseState where
  words : List VocabWord
  current_category : Option String
  current_word : Option VocabWord
deriving DecidableEq, Repr

/-- Initial parser state. -/
def initParse : ParseState :=
  { words := [], current_category := none, current_word := none }

/-- Flush helper: the records appended when the in-progress record is closed. -/
def flushList (st : ParseState) : List VocabWord :=
  match st.current_word with
  | some w => [w]
  | none => []

/-- Classification result of one `parse_text` line, mirroring the branch
structure of the Python loop body. -/
inductive LineKind where
  | skip
  | header (c : String)
  | word (n : Nat) (en pr pl : String) (ex : Option String)
  | exLine (e : String)
deriving DecidableEq, Repr

/-- Line classification of `WordParser.parse_text`, applied to one raw line:
strip; skip blank lines and separators; an all-uppercase line longer than 2
characters is a category header; a word-pattern match builds a record, with
the captured translation split at a case-insensitive embedded `ex:`;
otherwise an example match (regex, then the `startswith` fallback) updates
the in-progress record; anything else is a no-op. -/
def classifyLineL (raw : List Char) : LineKind :=
  let line := pyStripL raw
  if line.isEmpty || isSepL line then .skip
  else if isHeaderL line then .header line.asString
  else match reMatchWordL line with
    | some (g1, g2, g3, g4) =>
      let pl := pyStripL g4
      match findExPos pl with
      | some pos =>
        .word (natOfDigits g1) (pyStripL g2).asString (pyStripL g3).asString
          (pyStripL (pl.take pos)).asString (some (pyStripL (pl.drop (pos + 3))).asString)
      | none =>
        .word (natOfDigits g1) (pyStripL g2).asString (pyStripL g3).asString
          pl.asString none
    | none =>
      match exampleMatchL line with
      | some e => .exLine (pyStripL e).asString
      | none =>
        if startsWithExCIL line then .exLine (pyStripL (line.drop 3)).asString
        else .skip

/-- State transition of one `parse_text` line: a header updates the sticky
category; a word match first flushes the in-progress record, then opens a new
one carrying the current category; an example line overwrites the example of
the in-progress record (ignored when none is in progress). -/
def applyLine (st : ParseState) : LineKind → ParseState
  | .skip => st
  | .header c => { st with current_category := some c }
  | .word n en pr pl ex =>
    { st with
      words := st.words ++ flushList st
      current_word := some
        { number := n, english := en, pronunciation := pr, polish := pl
          exampleField := ex, category := st.current_category } }
  | .exLine e =>
    match st.current_word with
    | some w => { st with current_word := some { w with exampleField := some e } }
    | none => st

/-- One loop iteration of `WordParser.parse_text`. -/
def parseLine (st : ParseState) (raw : List Char) : ParseState :=
  applyLine st (classifyLineL raw)

/-- Loop epilogue of both parsers: append the final in-progress record. -/
def finalizeParse (st : ParseState) : List VocabWord :=
  st.words ++ flushList st

/-- `WordParser.parse_text` over an explicit line list. -/
def parse_text_lines (ls : List (List Char)) : List VocabWord :=
  finalizeParse (ls.foldl parseLine initParse)

/-- `WordParser.parse_text`: strip the whole text, split on newlines, scan. -/
def parse_text (s : String) : List VocabWord :=
  parse_text_lines (splitLinesL (pyStripL s.data))

/-- One loop iteration of `WordParser.parse_document` over a paragraph.
When the stripped paragraph embeds a newline, the first line is tried
against the word pattern, pairing it with an `ex:` second line; on failure
the whole paragraph falls through to independent classification.  Unlike
`parse_text`, the word branch stores the captured translation verbatim
(no `ex:` split), and the `startswith` example fallback only overwrites the
example when the remainder is nonempty. -/
def parseDocPara (st : ParseState) (raw : String) : ParseState :=
  let text := pyStripL raw.data
  if text.isEmpty || isSepL text then st
  else if isHeaderL text then { st with current_category := some text.asString }
  else
    let fallThrough : ParseState :=
      match reMatchWordL text with
      | some (g1, g2, g3, g4) =>
        { st with
          words := st.words ++ flushList st
          current_word := some
            { number := natOfDigits g1, english := (pyStripL g2).asString
              pronunciation := (pyStripL g3).asString, polish := (pyStripL g4).asString
              exampleField := none, category := st.current_category } }
      | none =>
        match exampleMatchL text, st.current_word with
        | some e, some w =>
          { st with current_word := some { w with exampleField := some (pyStripL e).asString } }
        | _, _ =>
          if startsWithExCIL text then
            match st.current_word with
            | some w =>
              let ex := pyStripL (text.drop 3)
              if ex.isEmpty then st
              else { st with current_word := some { w with exampleField := some ex.asString } }
            | none => st
          else st
    if text.contains '\n' then
      let linesInPara := splitLinesL text
      let wordLine := pyStripL (linesInPara.headD [])
      let exampleLine := pyStripL ((linesInPara.drop 1).headD [])
      match reMatchWordL wordLine with
      | some (g1, g2, g3, g4) =>
        let exampleText : Option String :=
          if startsWithExCIL exampleLine then some (pyStripL (exampleLine.drop 3)).asString
          else none
        { st with
          words := st.words ++ flushList st
          current_word := some
            { number := natOfDigits g1, english := (pyStripL g2).asString
              pronunciation := (pyStripL g3).asString, polish := (pyStripL g4).asString
              exampleField := exampleText, category := st.current_category } }
      | none => fallThrough
    else fallThrough

/-- `WordParser.parse_document`: the document's paragraphs (the texts of
`Document(file_data).paragraphs`, an external extraction step) scanned in
order with the paragraph classifier, then the final record flushed. -/
def parse_document (paras : List String) : List VocabWord :=
  finalizeParse (paras.foldl parseDocPara initParse)

/-- Python truthiness of the `example` value in
`WordParser.format_words_for_display`. -/
def exTruthy : Option String → Bool
  | some e => e != ""
  | none => false

/-- Insertion-ordered grouping of `format_words_for_display`: records are
appended to the group of their category, new categories at the end. -/
def addToGroups : List (Option String × List VocabWord) → VocabWord →
    List (Option String × List VocabWord)
  | [], w => [(w.category, [w])]
  | (k, ws) :: rest, w =>
    if k = w.category then (k, ws ++ [w]) :: rest
    else (k, ws) :: addToGroups rest w

/-- Display lines of one record in `format_words_for_display`. -/
def wordLines (w : VocabWord) : List String :=
  let line := toString w.number ++ (". **") ++ w.english ++ ("** (") ++
    w.pronunciation ++ (") – ") ++ w.polish
  if exTruthy w.exampleField then
    [line, ("   *ex: ") ++ w.exampleField.getD "" ++ ("*")]
  else [line]

/-- Display lines of one category group in `format_words_for_display`
(`if category:` skips the header for a falsy category). -/
def groupLines : Option String × List VocabWord → List String
  | (cat, ws) =>
    (match cat with
     | some c => if c == "" then [] else [("\n**") ++ c ++ ("**\n")]
     | none => []) ++ (ws.map wordLines).flatten

/-- Python `'\n'.join(result)`: empty for no pieces, otherwise the pieces
separated by single newlines. -/
def joinNL : List String → String
  | [] => ""
  | [a] => a
  | a :: rest => a ++ ("\n") ++ joinNL rest

/-- `WordParser.format_words_for_display`: group by category in insertion
order, render each group, join everything with newlines. -/
def format_words_for_display (words : List VocabWord) : String :=
  joinNL (((words.foldl addToGroups []).map groupLines).flatten)

/-- `config.TEST_PAUSE_DURATION` (the quiz-answer pause constant). -/
def TEST_PAUSE_DURATION : ℚ := 2

/-- Audio settings dict as read by `AudioGenerator.generate_audio` via
`settings.get` (defaults: speed 1.0, pause_between 2.0, repetitions 1,
include_examples True, test_mode None, voice `config.DEFAULT_VOICE`). -/
structure AudioCfg where
  speed : ℚ
  pause_between : ℚ
  repetitions : Nat
  include_examples : Bool
  test_mode : Option String
  voice : String
deriving DecidableEq, Repr

/-- One staged MP3 file in the scratch directory: either a generated silence
of a given duration or a synthesized speech file; `idx` is the value of the
shared `_file_counter` when the file was created, so distinct generation
events yield distinct paths. -/
inductive AudioFile where
  | silence (idx : Nat) (duration : ℚ)
  | speech (idx : Nat) (text : String)
deriving DecidableEq, Repr

/-- Speech-file test. -/
def isSpeechF : AudioFile → Bool
  | .speech _ _ => true
  | .silence _ _ => false

/-- Observable state of one composition run: the file counter plus the logs
of external calls (each OpenAI TTS call with its text, speed and voice, and
each ffmpeg silence generation with its duration, in call order). -/
structure GenState where
  counter : Nat
  ttsCalls : List (String × ℚ × String)
  silenceCalls : List ℚ
deriving DecidableEq, Repr

/-- State at the start of `generate_audio` (fresh temp dir, counter reset). -/
def initGen : GenState :=
  { counter := 0, ttsCalls := [], silenceCalls := [] }

/-- Outcome of the external ffmpeg concat invocation: its exit code, and the
bytes present at the output path afterwards (`none` when no output file was
created).  `generate_audio` inspects only the file, never the exit code. -/
structure ConcatResult where
  returncode : Int
  output : Option (List Nat)
deriving DecidableEq, Repr

/-- Result of one `generate_audio` run: the returned buffer, the assembled
file list handed to concat, and the final call-log state. -/
structure AudioRun where
  buffer : List Nat
  fileList : List AudioFile
  state : GenState
deriving DecidableEq, Repr

/-- `AudioGenerator._generate_silence`: bump the counter, create a fresh
silence file of the requested duration, log the generation. -/
def generateSilence (st : GenState) (d : ℚ) : AudioFile × GenState :=
  (AudioFile.silence (st.counter + 1) d,
   { st with counter := st.counter + 1, silenceCalls := st.silenceCalls ++ [d] })

/-- `AudioGenerator._text_to_file`: bump the counter, synthesize the text via
OpenAI TTS into a fresh file, log the call. -/
def textToFile (st : GenState) (text : String) (speed : ℚ) (voice : String) :
    AudioFile × GenState :=
  (AudioFile.speech (st.counter + 1) text,
   { st with counter := st.counter + 1, ttsCalls := st.ttsCalls ++ [(text, speed, voice)] })

/-- `AudioGenerator._generate_word_files`: the per-record file group.  Quiz
modes interleave the quiz pause; normal mode interleaves the 1-second pause
and appends the example only when examples are enabled and the example text
is truthy. -/
def generateWordFiles (st : GenState) (english polish exampleS : String)
    (include_examples : Bool) (test_mode : Option String) (speed : ℚ) (voice : String)
    (silence_1s silence_test : AudioFile) : List AudioFile × GenState :=
  if test_mode == some ("pl_to_en") then
    let r1 := textToFile st polish speed voice
    let r2 := textToFile r1.2 english speed voice
    ([r1.1, silence_test, r2.1], r2.2)
  else if test_mode == some ("en_to_pl") then
    let r1 := textToFile st english speed voice
    let r2 := textToFile r1.2 polish speed voice
    ([r1.1, silence_test, r2.1], r2.2)
  else
    let r1 := textToFile st english speed voice
    let r2 := textToFile r1.2 polish speed voice
    if include_examples && exampleS != "" then
      let r3 := textToFile r2.2 exampleS speed voice
      ([r1.1, silence_1s, r2.1, silence_1s, r3.1], r3.2)
    else
      ([r1.1, silence_1s, r2.1], r2.2)

/-- Repetition loop of `generate_audio`: extend the list with the word files
each round and put the 1-second pause between rounds (not after the last). -/
def repeatFiles (files : List AudioFile) (silence_1s : AudioFile) : Nat → List AudioFile
  | 0 => []
  | n + 1 => if n = 0 then files else files ++ silence_1s :: repeatFiles files silence_1s n

/-- Cleaning step of `generate_audio`: `english.split('(')[0].strip()`,
applied only when a `(` is present, on the local copy of the headword. -/
def stripParen (s : String) : String :=
  if s.data.contains '(' then (pyStripL (s.data.takeWhile (fun c => c != '('))).asString
  else s

/-- Main loop of `generate_audio` over the enumerated word list (`i` is the
1-based position, `n` the total length).  Records with a blank english or
polish field are skipped entirely; the inter-entry pause is appended after a
processed record whenever its position is before the last input position. -/
def processWords (cfg : AudioCfg) (s1 sbet stest : AudioFile) :
    List VocabWord → Nat → Nat → GenState → List AudioFile × GenState
  | [], _, _, st => ([], st)
  | w :: rest, i, n, st =>
    let english := pyStrip w.english
    let polish := pyStrip w.polish
    let exampleS := pyStrip (w.exampleField.getD "")
    if english == "" || polish == "" then
      processWords cfg s1 sbet stest rest (i + 1) n st
    else
      let r := generateWordFiles st (stripParen english) polish exampleS
        cfg.include_examples cfg.test_mode cfg.speed cfg.voice s1 stest
      let group := repeatFiles r.1 s1 cfg.repetitions
      let sep := if i < n then [sbet] else []
      let tail := processWords cfg s1 sbet stest rest (i + 1) n r.2
      (group ++ sep ++ tail.1, tail.2)

/-- `AudioGenerator.generate_audio`: pre-generate the three silences (1 s,
the inter-entry pause, the quiz pause), assemble the file list over all
records, hand it to the external concat step, and return the bytes found at
the output path — or an empty buffer when no output file exists.  The concat
exit code is only logged by `_concat_files`, never consulted. -/
def generate_audio (words : List VocabWord) (cfg : AudioCfg)
    (concat : List AudioFile → ConcatResult) : AudioRun :=
  let p1 := generateSilence initGen 1
  let p2 := generateSilence p1.2 cfg.pause_between
  let p3 := generateSilence p2.2 TEST_PAUSE_DURATION
  let r := processWords cfg p1.1 p2.1 p3.1 words 1 words.length p3.2
  let res := concat r.1
  { buffer := res.output.getD [], fileList := r.1, state := r.2 }

/-- Spoken phrase texts of one record group, in synthesis order, as
`_generate_word_files` produces them. -/
def phraseTexts (include_examples : Bool) (test_mode : Option String)
    (english polish exampleS : String) : List String :=
  if test_mode == some ("pl_to_en") then [polish, english]
  else if test_mode == some ("en_to_pl") then [english, polish]
  else if include_examples && exampleS != "" then [english, polish, exampleS]
  else [english, polish]

/-- TTS calls contributed by one record of the main loop: none for an
invalid record, otherwise one call per phrase of its group. -/
def wordCalls (cfg : AudioCfg) (w : VocabWord) : List (String × ℚ × String) :=
  let english := pyStrip w.english
  let polish := pyStrip w.polish
  let exampleS := pyStrip (w.exampleField.getD "")
  if english == "" || polish == "" then []
  else (phraseTexts cfg.include_examples cfg.test_mode (stripParen english) polish exampleS).map
    (fun t => (t, cfg.speed, cfg.voice))

/-- TTS calls of a whole run, record by record. -/
def audioCalls (cfg : AudioCfg) : List VocabWord → List (String × ℚ × String)
  | [] => []
  | w :: rest => wordCalls cfg w ++ audioCalls cfg rest

/-- Validity-with-example predicate used by the segment-count law: both
required fields nonempty after stripping, and a truthy example. -/
def validWithExample (w : VocabWord) : Bool :=
  pyStrip w.english != "" && pyStrip w.polish != "" && pyStrip (w.exampleField.getD "") != ""

/-- Count of lines the parser classifies as headword lines. -/
def wordLineCount (ls : List (List Char)) : Nat :=
  ls.countP (fun l => match classifyLineL l with | .word _ _ _ _ _ => true | _ => false)

/-- One-or-zero length of the flush of the in-progress record. -/
def flushCount (st : ParseState) : Nat :=
  match st.current_word with
  | some _ => 1
  | none => 0

/-- View of a record as the three stripped strings the audio main loop reads. -/
def wordView (w : VocabWord) : String × String × String :=
  (pyStrip w.english, pyStrip w.polish, pyStrip (w.exampleField.getD ""))

/-- Default audio settings of `config.DEFAULT_AUDIO_SETTINGS`. -/
def cfgDefault : AudioCfg :=
  { speed := 1, pause_between := 2, repetitions := 1, include_examples := true
    test_mode := none, voice := "echo" }

/-- Concat backend that fails without creating an output file. -/
def concatNone : List AudioFile → ConcatResult :=
  fun _ => { returncode := 0, output := none }

/-- Concat backend that exits nonzero yet leaves a (partial) output file. -/
def concatFail : List AudioFile → ConcatResult :=
  fun _ => { returncode := 1, output := some [7, 7] }

/-- Concat backend that exits zero with the same output file as `concatFail`. -/
def concatOkSame : List AudioFile → ConcatResult :=
  fun _ => { returncode := 0, output := some [7, 7] }

/-- Sample valid record with an example. -/
def wCat : VocabWord :=
  { number := 1, english := "cat", pronunciation := "kat", polish := "kot"
    exampleField := some "The cat sleeps.", category := none }

/-- Sample invalid record (blank english field). -/
def wBlank : VocabWord :=
  { number := 2, english := "", pronunciation := "x", polish := "pies"
    exampleField := none, category := none }

/-- Sample valid record without an example. -/
def wCatNoEx : VocabWord :=
  { wCat with exampleField := none }

/-- Sample record whose headword carries a parenthetical annotation. -/
def wLight : VocabWord :=
  { number := 1, english := "light (adj.)", pronunciation := "lajt", polish := "jasny"
    exampleField := none, category := none }

/-- Settings whose inter-entry pause coincides with the 1-second pause. -/
def cfgPauseOne : AudioCfg :=
  { cfgDefault with pause_between := 1 }

/-- Settings with two repetitions and examples disabled. -/
def cfgRepTwo : AudioCfg :=
  { cfgDefault with repetitions := 2, include_examples := false }

/-- Settings with speed and pause outside their documented ranges. -/
def cfgOutOfRange : AudioCfg :=
  { cfgDefault with speed := 3, pause_between := 10 }

/-- Sample line list before a category header. -/
def c8Pre : List (List Char) :=
  [("1. dog (dog) - pies").data]

/-- Sample category header line. -/
def c8Hdr : List Char :=
  ("ZWIERZETA").data

/-- Sample line list after the category header. -/
def c8Post : List (List Char) :=
  [("2. cat (kat) - kot").data, ("ex: A cat.").data]

/-- Sample paragraph whose translation text embeds an `ex:` example. -/
def c5Para : String :=
  "1. run (ran) - biegac ex: She runs."

/-- Sample record for the display-format round trip. -/
def c7Word : VocabWord :=
  { number := 1, english := "run", pronunciation := "ran", polish := "biegac"
    exampleField := some "She runs.", category := none }

/-- Fixed character prefix of a rendered example display line, stripped. -/
def starExPrefix : List Char :=
  ('*' :: 'e' :: 'x' :: ':' :: ' ' :: [])

theorem generateWordFiles_snd (st : GenState) (en pl ex : String) (inc : Bool)
    (tm : Option String) (sp : ℚ) (v : String) (s1 stest : AudioFile) :
    (generateWordFiles st en pl ex inc tm sp v s1 stest).2 =
      { st with
        counter := st.counter + (phraseTexts inc tm en pl ex).length
        ttsCalls := st.ttsCalls ++ (phraseTexts inc tm en pl ex).map (fun t => (t, sp, v)) } := by
  cases st with
  | mk c t s =>
    unfold generateWordFiles phraseTexts textToFile
    split_ifs <;> simp [List.append_assoc]

theorem processWords_snd (cfg : AudioCfg) (s1 sbet stest : AudioFile) :
    ∀ (ws : List VocabWord) (i n : Nat) (st : GenState),
      (processWords cfg s1 sbet stest ws i n st).2 =
        { st with
          counter := st.counter + (audioCalls cfg ws).length
          ttsCalls := st.ttsCalls ++ audioCalls cfg ws }
  | [], i, n, st => by simp [processWords, audioCalls]
  | w :: rest, i, n, st => by
    unfold processWords
    rcases hv : (pyStrip w.english == "" || pyStrip w.polish == "") with _ | _
    · simp only [hv, Bool.false_eq_true, if_false]
      rw [processWords_snd cfg s1 sbet stest rest (i + 1) n _]
      rw [generateWordFiles_snd]
      have h12 := hv
      simp only [Bool.or_eq_false_iff] at h12
      simp [audioCalls, wordCalls, hv, h12.1, h12.2, List.append_assoc]
      omega
    · simp only [hv, if_true]
      rw [processWords_snd cfg s1 sbet stest rest (i + 1) n st]
      simp [audioCalls, wordCalls, hv]

theorem generate_audio_state (words : List VocabWord) (cfg : AudioCfg)
    (concat : List AudioFile → ConcatResult) :
    (generate_audio words cfg concat).state =
      { counter := 3 + (audioCalls cfg words).length
        ttsCalls := audioCalls cfg words
        silenceCalls := [1, cfg.pause_between, TEST_PAUSE_DURATION] } := by
  show (generate_audio words cfg concat).state = _
  unfold generate_audio generateSilence initGen
  simp only []
  rw [processWords_snd]
  simp

theorem repeatFiles_one (files : List AudioFile) (s1 : AudioFile) :
    repeatFiles files s1 1 = files := rfl

theorem generateWordFiles_fst_none (st : GenState) (en pl ex : String) (sp : ℚ) (v : String)
    (s1 stest : AudioFile) (hex : (ex != "") = true) :
    (generateWordFiles st en pl ex true none sp v s1 stest).1 =
      [AudioFile.speech (st.counter + 1) en, s1, AudioFile.speech (st.counter + 2) pl,
       s1, AudioFile.speech (st.counter + 3) ex] := by
  unfold generateWordFiles textToFile
  simp [hex]

theorem processWords_counts (cfg : AudioCfg) (pb tq : ℚ)
    (hmode : cfg.test_mode = none) (hrep : cfg.repetitions = 1)
    (hinc : cfg.include_examples = true) :
    ∀ (ws : List VocabWord) (i n : Nat) (st : GenState),
      (∀ w ∈ ws, validWithExample w = true) → i + ws.length = n + 1 →
      ((processWords cfg (AudioFile.silence 1 1) (AudioFile.silence 2 pb)
          (AudioFile.silence 3 tq) ws i n st).1.countP isSpeechF = 3 * ws.length ∧
       (processWords cfg (AudioFile.silence 1 1) (AudioFile.silence 2 pb)
          (AudioFile.silence 3 tq) ws i n st).1.count (AudioFile.silence 2 pb) = ws.length - 1)
  | [], i, n, st, _, _ => by simp [processWords]
  | w :: rest, i, n, st, hval, harith => by
    have hw := hval w (List.mem_cons_self w rest)
    have hcomp : (pyStrip w.english != "") = true ∧ (pyStrip w.polish != "") = true ∧
        (pyStrip (w.exampleField.getD "") != "") = true := by
      unfold validWithExample at hw
      simp only [Bool.and_eq_true] at hw
      exact ⟨hw.1.1, hw.1.2, hw.2⟩
    have hskip : (pyStrip w.english == "" || pyStrip w.polish == "") = false := by
      rcases hcomp with ⟨h1, h2, _⟩
      simp only [bne] at h1 h2
      simp [Bool.not_eq_true'] at h1 h2
      simp [h1, h2]
    unfold processWords
    simp only [hskip, Bool.false_eq_true, if_false]
    rw [hmode, hinc, hrep]
    rw [generateWordFiles_fst_none _ _ _ _ _ _ _ _ hcomp.2.2, repeatFiles_one]
    cases rest with
    | nil =>
      have hi : ¬ i < n := by
        simp at harith; omega
      simp only [hi, if_false]
      simp [processWords, List.countP_cons, List.count_cons, isSpeechF]
    | cons w2 rs =>
      have hi : i < n := by
        simp at harith; omega
      have ih := fun st' => processWords_counts cfg pb tq hmode hrep hinc (w2 :: rs) (i + 1) n st'
        (fun x hx => hval x (List.mem_cons_of_mem w hx)) (by simp at harith ⊢; omega)
      simp only [hi, if_true]
      rw [List.countP_append, List.countP_append, List.count_append, List.count_append]
      rw [(ih _).1, (ih _).2]
      simp [List.countP_cons, List.count_cons, isSpeechF]
      constructor
      · omega
      · omega

theorem wordCalls_reps (cfg : AudioCfg) (r : Nat) (w : VocabWord) :
    wordCalls { cfg with repetitions := r } w = wordCalls cfg w := rfl

theorem audioCalls_reps (cfg : AudioCfg) (r : Nat) :
    ∀ ws : List VocabWord, audioCalls { cfg with repetitions := r } ws = audioCalls cfg ws
  | [] => rfl
  | w :: rest => by
    simp only [audioCalls, wordCalls_reps, audioCalls_reps cfg r rest]

theorem audioCalls_speed (cfg : AudioCfg) :
    ∀ ws : List VocabWord, ∀ c ∈ audioCalls cfg ws, c.2.1 = cfg.speed
  | [], c, hc => by simp [audioCalls] at hc
  | w :: rest, c, hc => by
    simp only [audioCalls, List.mem_append] at hc
    rcases hc with hc | hc
    · unfold wordCalls at hc
      simp only [] at hc
      split at hc
      · simp at hc
      · rcases List.mem_map.mp hc with ⟨t, _, rfl⟩
        rfl
    · exact audioCalls_speed cfg rest c hc

theorem processWords_congr (cfg : AudioCfg) (s1 sbet stest : AudioFile) :
    ∀ (ws1 ws2 : List VocabWord) (i n : Nat) (st : GenState),
      ws1.map wordView = ws2.map wordView →
      processWords cfg s1 sbet stest ws1 i n st = processWords cfg s1 sbet stest ws2 i n st
  | [], [], _, _, _, _ => rfl
  | [], _ :: _, _, _, _, h => by simp at h
  | _ :: _, [], _, _, _, h => by simp at h
  | w1 :: r1, w2 :: r2, i, n, st, h => by
    simp only [List.map_cons, List.cons.injEq] at h
    have hv : pyStrip w1.english = pyStrip w2.english ∧ pyStrip w1.polish = pyStrip w2.polish ∧
        pyStrip (w1.exampleField.getD "") = pyStrip (w2.exampleField.getD "") := by
      have := h.1
      unfold wordView at this
      simp only [Prod.mk.injEq] at this
      exact ⟨this.1, this.2.1, this.2.2⟩
    have ih := processWords_congr cfg s1 sbet stest r1 r2 (i + 1) n
    unfold processWords
    simp only []
    rw [hv.1, hv.2.1, hv.2.2]
    simp only [ih _ h.2]

/-- Claim C1, counterexample: a concat backend that exits with code 1 while a
partial output file is on disk.  `generate_audio` returns those partial bytes
as its ordinary success result — the composition does not fail and a partial
artifact IS returned, contradicting the claim. -/
theorem c1_counterexample :
    (generate_audio [wCat] cfgDefault concatFail).buffer = [7, 7] ∧
    (concatFail (generate_audio [wCat] cfgDefault concatFail).fileList).returncode ≠ 0 := by
  decide

/-- Claim C1 (amended): `generate_audio` never consults the concat exit code.
Its returned buffer is exactly the bytes found at the output path (or an
empty buffer when no output file exists): two concat backends that leave the
same output file yield the same buffer no matter their exit codes, and the
buffer equals the output-file contents of the run. -/
theorem c1_concat_ignored (words : List VocabWord) (cfg : AudioCfg)
    (c1 c2 : List AudioFile → ConcatResult)
    (h : ∀ fl, (c1 fl).output = (c2 fl).output) :
    (generate_audio words cfg c1).buffer = (generate_audio words cfg c2).buffer ∧
    (generate_audio words cfg c1).buffer =
      ((c1 (generate_audio words cfg c1).fileList).output).getD [] := by
  constructor
  · unfold generate_audio
    simp only []
    rw [h]
  · rfl

/-- Witness for C1: the amended theorem applied to the two concrete concat
backends that differ only in exit code. -/
theorem c1_witness :
    (generate_audio [wCat] cfgDefault concatFail).buffer =
      (generate_audio [wCat] cfgDefault concatOkSame).buffer ∧
    (generate_audio [wCat] cfgDefault concatFail).buffer =
      ((concatFail (generate_audio [wCat] cfgDefault concatFail).fileList).output).getD [] :=
  c1_concat_ignored [wCat] cfgDefault concatFail concatOkSame (fun _ => rfl)

/-- Claim C2, counterexample: with a valid record followed by an invalid one,
the assembled file list ends with the inter-entry pause, i.e. the pause IS
inserted after the final valid record (the loop tests the position `i`
against the raw input length, counting skipped records too). -/
theorem c2_counterexample :
    (generate_audio [wCat, wBlank] cfgDefault concatNone).fileList =
      [AudioFile.speech 4 ("cat"), AudioFile.silence 1 1, AudioFile.speech 5 ("kot"),
       AudioFile.silence 1 1, AudioFile.speech 6 ("The cat sleeps."),
       AudioFile.silence 2 cfgDefault.pause_between] ∧
    (generate_audio [wCat, wBlank] cfgDefault concatNone).fileList.getLast? =
      some (AudioFile.silence 2 cfgDefault.pause_between) := by
  decide

/-- Claim C2 (amended): the inter-entry pause is appended after each valid
record whose 1-based position is strictly before the input length, so when
all records are valid it sits exactly between consecutive records; the
segment-count law then holds as claimed: for quizMode NONE, repetitions 1,
includeExamples true and every record valid with an example, the file list
holds exactly 3 * recordCount speech segments and recordCount - 1 copies of
the inter-entry silence. -/
theorem c2_segment_counts (words : List VocabWord) (cfg : AudioCfg)
    (concat : List AudioFile → ConcatResult)
    (hmode : cfg.test_mode = none) (hrep : cfg.repetitions = 1)
    (hinc : cfg.include_examples = true)
    (hval : ∀ w ∈ words, validWithExample w = true) :
    (generate_audio words cfg concat).fileList.countP isSpeechF = 3 * words.length ∧
    (generate_audio words cfg concat).fileList.count
      (AudioFile.silence 2 cfg.pause_between) = words.length - 1 := by
  have h := processWords_counts cfg cfg.pause_between TEST_PAUSE_DURATION hmode hrep hinc
    words 1 words.length
  unfold generate_audio generateSilence initGen
  simp only []
  exact h _ hval (by omega)

/-- Witness for C2: the amended count law at two concrete valid records. -/
theorem c2_witness :
    (generate_audio [wCat, wCat] cfgDefault concatNone).fileList.countP isSpeechF =
      3 * [wCat, wCat].length ∧
    (generate_audio [wCat, wCat] cfgDefault concatNone).fileList.count
      (AudioFile.silence 2 cfgDefault.pause_between) = [wCat, wCat].length - 1 :=
  c2_segment_counts [wCat, wCat] cfgDefault concatNone rfl rfl rfl (by decide)

/-- Claim C3, counterexample: with interWordPauseSeconds equal to 1.0 the run
invokes the silence generator twice with duration 1 (calls one and two), so a
duration is generated twice within one run — there is no memoization. -/
theorem c3_counterexample :
    (generate_audio ([] : List VocabWord) cfgPauseOne concatNone).state.silenceCalls =
      [1, 1, 2] ∧
    ¬ ((generate_audio ([] : List VocabWord) cfgPauseOne concatNone).state.silenceCalls.count
        (1 : ℚ) ≤ 1) := by
  decide

/-- Claim C3 (amended): every run invokes the silence generator exactly three
times, with durations 1.0, interWordPauseSeconds and the quiz-pause constant
in that order, unconditionally: duplicate duration values are generated
again rather than memoized. -/
theorem c3_silence_calls (words : List VocabWord) (cfg : AudioCfg)
    (concat : List AudioFile → ConcatResult) :
    (generate_audio words cfg concat).state.silenceCalls =
      [1, cfg.pause_between, TEST_PAUSE_DURATION] := by
  rw [generate_audio_state]

/-- Claim C4, counterexample: with repetitions 2 the record's two phrases are
synthesized once each (two TTS calls, not 2 * 2), and the repeat round reuses
the very same files (speech file 4 and 5 each occur twice in the list). -/
theorem c4_counterexample :
    (generate_audio [wCatNoEx] cfgRepTwo concatNone).state.ttsCalls =
      [(("cat"), (1 : ℚ), ("echo")), (("kot"), (1 : ℚ), ("echo"))] ∧
    (generate_audio [wCatNoEx] cfgRepTwo concatNone).state.ttsCalls.length ≠
      2 * cfgRepTwo.repetitions ∧
    (generate_audio [wCatNoEx] cfgRepTwo concatNone).fileList =
      [AudioFile.speech 4 ("cat"), AudioFile.silence 1 1, AudioFile.speech 5 ("kot"),
       AudioFile.silence 1 1,
       AudioFile.speech 4 ("cat"), AudioFile.silence 1 1, AudioFile.speech 5 ("kot")] := by
  decide

/-- Claim C4 (amended): the TTS call log of a run is exactly one call per
phrase of each valid record's group — independent of the repetitions
setting; repeat rounds reuse the already synthesized files. -/
theorem c4_one_call_per_phrase (words : List VocabWord) (cfg : AudioCfg)
    (concat : List AudioFile → ConcatResult) (r : Nat) :
    (generate_audio words cfg concat).state.ttsCalls = audioCalls cfg words ∧
    (generate_audio words { cfg with repetitions := r } concat).state.ttsCalls =
      (generate_audio words cfg concat).state.ttsCalls := by
  rw [generate_audio_state, generate_audio_state]
  exact ⟨rfl, audioCalls_reps cfg r words⟩

/-- Claim C6, counterexample: speed 3.0 (above the 2.0 bound) and pause 10.0
(above the 5.0 bound) are handed verbatim to the synthesis and silence
backends — neither rejected nor clamped. -/
theorem c6_counterexample :
    (generate_audio [wCatNoEx] cfgOutOfRange concatNone).state.ttsCalls =
      [(("cat"), (3 : ℚ), ("echo")), (("kot"), (3 : ℚ), ("echo"))] ∧
    (generate_audio [wCatNoEx] cfgOutOfRange concatNone).state.silenceCalls = [1, 10, 2] ∧
    ¬ ((3 : ℚ) ≤ 2) ∧ ¬ ((10 : ℚ) ≤ 5) := by
  decide

/-- Claim C6 (amended): `generate_audio` performs no range validation at all:
every TTS call carries exactly the configured speed, and the configured
inter-entry pause is forwarded unchanged as the second silence duration. -/
theorem c6_passthrough (words : List VocabWord) (cfg : AudioCfg)
    (concat : List AudioFile → ConcatResult) :
    (∀ c ∈ (generate_audio words cfg concat).state.ttsCalls, c.2.1 = cfg.speed) ∧
    (generate_audio words cfg concat).state.silenceCalls =
      [1, cfg.pause_between, TEST_PAUSE_DURATION] := by
  rw [generate_audio_state]
  exact ⟨audioCalls_speed cfg words, rfl⟩

/-- Witness for C6: the pass-through theorem applied at the out-of-range
settings; the first TTS call of the run indeed carries speed 3. -/
theorem c6_witness :
    ((("cat"), (3 : ℚ), ("echo")) : String × ℚ × String).2.1 = cfgOutOfRange.speed ∧
    (generate_audio [wCatNoEx] cfgOutOfRange concatNone).state.silenceCalls =
      [1, cfgOutOfRange.pause_between, TEST_PAUSE_DURATION] :=
  ⟨(c6_passthrough [wCatNoEx] cfgOutOfRange concatNone).1 (("cat"), (3 : ℚ), ("echo"))
      (by decide),
   (c6_passthrough [wCatNoEx] cfgOutOfRange concatNone).2⟩

/-- Claim C9 (confirmed): for a record whose stored (stripped) headword
contains a parenthetical, the first TTS call of its NONE-mode run speaks the
prefix before the first parenthesis, trimmed.  The stored record is an
immutable input of the embedding because the source only rebinds the local
variable `english` and never writes into the record. -/
theorem c9_headword_stripped (w : VocabWord) (cfg : AudioCfg)
    (concat : List AudioFile → ConcatResult)
    (hmode : cfg.test_mode = none)
    (hen : pyStrip w.english ≠ "") (hpl : pyStrip w.polish ≠ "")
    (hpar : (pyStrip w.english).data.contains '(' = true) :
    ((generate_audio [w] cfg concat).state.ttsCalls).head? =
      some ((pyStripL ((pyStrip w.english).data.takeWhile (fun c => c != '('))).asString,
        cfg.speed, cfg.voice) := by
  rw [generate_audio_state]
  show (audioCalls cfg [w]).head? = _
  unfold audioCalls audioCalls wordCalls phraseTexts stripParen
  simp only [hmode, hpar]
  simp [hen, hpl]
  split_ifs <;> simp

/-- Witness for C9: the record with headword light (adj.) is spoken as the
stripped prefix. -/
theorem c9_witness :
    ((generate_audio [wLight] cfgDefault concatNone).state.ttsCalls).head? =
      some ((pyStripL ((pyStrip wLight.english).data.takeWhile (fun c => c != '('))).asString,
        cfgDefault.speed, cfgDefault.voice) :=
  c9_headword_stripped wLight cfgDefault concatNone rfl (by decide) (by decide) (by decide)

/-- Claim C10 (confirmed): a record whose example is absent, empty or
whitespace-only yields exactly the same run (same file list, same call logs,
same buffer) as the same record with no example at all, in any position of
the input list: no example silence is added and no TTS call is made for the
blank example. -/
theorem c10_blank_example (pre post : List VocabWord) (w : VocabWord) (e : Option String)
    (cfg : AudioCfg) (concat : List AudioFile → ConcatResult)
    (hmode : cfg.test_mode = none) (hinc : cfg.include_examples = true)
    (he : pyStrip (e.getD "") = "") :
    generate_audio (pre ++ { w with exampleField := e } :: post) cfg concat =
      generate_audio (pre ++ { w with exampleField := none } :: post) cfg concat := by
  have hmid : wordView { w with exampleField := e } = wordView { w with exampleField := none } := by
    unfold wordView
    simp only []
    rw [he]
    rfl
  have hmap : (pre ++ { w with exampleField := e } :: post).map wordView =
      (pre ++ { w with exampleField := none } :: post).map wordView := by
    simp [hmid]
  have hlen : (pre ++ { w with exampleField := e } :: post).length =
      (pre ++ { w with exampleField := none } :: post).length := by simp
  unfold generate_audio
  simp only []
  rw [hlen, processWords_congr _ _ _ _ _ _ 1 _ _ hmap]

/-- Witness for C10: a whitespace-only example behaves as no example. -/
theorem c10_witness :
    generate_audio ([] ++ { wCat with exampleField := some ("   ") } :: []) cfgDefault concatNone =
      generate_audio ([] ++ { wCat with exampleField := none } :: []) cfgDefault concatNone :=
  c10_blank_example [] [] wCat (some ("   ")) cfgDefault concatNone rfl rfl (by decide)

theorem pyIsUpperL_ne_empty (l : List Char) (h : pyIsUpperL l = true) : l.isEmpty = false := by
  cases l with
  | nil => simp [pyIsUpperL] at h
  | cons c t => rfl

theorem pyIsUpperL_not_sep (l : List Char) (h : pyIsUpperL l = true) : isSepL l = false := by
  unfold pyIsUpperL at h
  simp only [Bool.and_eq_true] at h
  rcases h with ⟨ha, _⟩
  rcases List.any_eq_true.mp ha with ⟨c, hc, hca⟩
  unfold isSepL
  by_cases hall : l.all (fun c => c == '-')
  · have := List.all_eq_true.mp hall c hc
    have hcd : c = '-' := by simpa using this
    rw [hcd] at hca
    simp [Char.isAlpha, Char.isUpper, Char.isLower] at hca
  · simp only [Bool.not_eq_true] at hall
    simp [hall]

theorem classifyLineL_header (raw : List Char) (hh : isHeaderL (pyStripL raw) = true) :
    classifyLineL raw = .header (pyStripL raw).asString := by
  have hu : pyIsUpperL (pyStripL raw) = true := by
    have h := hh
    unfold isHeaderL at h
    simp only [Bool.and_eq_true] at h
    exact h.1
  unfold classifyLineL
  simp only [pyIsUpperL_ne_empty _ hu, pyIsUpperL_not_sep _ hu, Bool.or_self,
    Bool.false_eq_true, if_false, hh, if_true]

theorem classifyLineL_header_inv (raw : List Char) (c : String)
    (hk : classifyLineL raw = .header c) : isHeaderL (pyStripL raw) = true := by
  unfold classifyLineL at hk
  simp only [] at hk
  split_ifs at hk with h1 h2
  · exact h2
  all_goals (split at hk <;> simp_all) <;> (try split at hk) <;> simp_all

theorem finalizeParse_eq (st : ParseState) : finalizeParse st = st.words ++ flushList st := rfl

theorem flushList_length (st : ParseState) : (flushList st).length = flushCount st := by
  unfold flushList flushCount
  cases st.current_word <;> rfl

theorem foldl_no_header_decomp :
    ∀ (ls : List (List Char)) (st : ParseState),
      (∀ l ∈ ls, isHeaderL (pyStripL l) = false) →
      ∃ m : List VocabWord,
        finalizeParse (ls.foldl parseLine st) = st.words ++ m ∧
        m.length = flushCount st + wordLineCount ls ∧
        (∀ r ∈ m.drop (flushCount st), r.category = st.current_category) ∧
        (∀ w0, st.current_word = some w0 →
          ∀ r ∈ m.take (flushCount st), r.category = w0.category)
  | [], st, _ => by
    refine ⟨flushList st, rfl, ?_, ?_, ?_⟩
    · simp [flushList_length, wordLineCount]
    · intro r hr
      unfold flushList flushCount at hr
      cases h : st.current_word <;> simp [h] at hr
    · intro w0 hw0 r hr
      unfold flushList flushCount at hr
      rw [hw0] at hr
      simp at hr
      rw [hr]
  | l :: ls, st, hno => by
    have hnol : isHeaderL (pyStripL l) = false := hno l (List.mem_cons_self l ls)
    have hnos : ∀ x ∈ ls, isHeaderL (pyStripL x) = false :=
      fun x hx => hno x (List.mem_cons_of_mem l hx)
    rw [List.foldl_cons]
    have hstep : parseLine st l = applyLine st (classifyLineL l) := rfl
    cases hk : classifyLineL l with
    | skip =>
      rcases foldl_no_header_decomp ls st hnos with ⟨m, hm1, hm2, hm3, hm4⟩
      refine ⟨m, ?_, ?_, hm3, hm4⟩
      · rw [hstep, hk]
        exact hm1
      · rw [hm2]
        unfold wordLineCount
        rw [List.countP_cons, hk]
        simp [wordLineCount]
    | header c =>
      rw [classifyLineL_header_inv l c hk] at hnol
      exact absurd hnol (by simp)
    | word n en pr pl ex =>
      rcases foldl_no_header_decomp ls (applyLine st (.word n en pr pl ex)) hnos with
        ⟨m', hm1, hm2, hm3, hm4⟩
      refine ⟨flushList st ++ m', ?_, ?_, ?_, ?_⟩
      · rw [hstep, hk, hm1]
        unfold applyLine
        simp [List.append_assoc]
      · rw [List.length_append, flushList_length, hm2]
        unfold applyLine flushCount wordLineCount
        rw [List.countP_cons, hk]
        simp [wordLineCount]
        omega
      · intro r hr
        rw [List.drop_left' (flushList_length st)] at hr
        have hcover : r ∈ m'.take (flushCount (applyLine st (.word n en pr pl ex))) ∨
            r ∈ m'.drop (flushCount (applyLine st (.word n en pr pl ex))) := by
          rw [← List.mem_append, List.take_append_drop]
          exact hr
        rcases hcover with hr' | hr'
        · exact (hm4 _ rfl r hr').trans rfl
        · exact (hm3 r hr').trans rfl
      · intro w0 hw0 r hr
        rw [List.take_left' (flushList_length st)] at hr
        unfold flushList at hr
        rw [hw0] at hr
        simp at hr
        rw [hr]
    | exLine e =>
      cases hcw : st.current_word with
      | none =>
        have happ : applyLine st (.exLine e) = st := by
          unfold applyLine
          rw [hcw]
        rcases foldl_no_header_decomp ls st hnos with ⟨m, hm1, hm2, hm3, hm4⟩
        refine ⟨m, ?_, ?_, hm3, fun w1 h => absurd h (by simp)⟩
        · rw [hstep, hk, happ]
          exact hm1
        · rw [hm2]
          unfold wordLineCount
          rw [List.countP_cons, hk]
          simp [wordLineCount]
      | some w0 =>
        have happ : applyLine st (.exLine e) =
            { st with current_word := some { w0 with exampleField := some e } } := by
          unfold applyLine
          rw [hcw]
        rcases foldl_no_header_decomp ls
          ({ st with current_word := some { w0 with exampleField := some e } }) hnos with
          ⟨m, hm1, hm2, hm3, hm4⟩
        have hfc : flushCount { st with current_word := some { w0 with exampleField := some e } } =
            flushCount st := by
          unfold flushCount
          rw [hcw]
        refine ⟨m, ?_, ?_, ?_, ?_⟩
        · rw [hstep, hk, happ]
          exact hm1
        · rw [hm2, hfc]
          unfold wordLineCount
          rw [List.countP_cons, hk]
          simp [wordLineCount]
        · intro r hr
          rw [← hfc] at hr
          exact hm3 r hr
        · intro w1 hw1 r hr
          have hw1' : w1 = w0 := by
            injection hw1 with h
            exact h.symm
          rw [← hfc] at hr
          rw [hw1']
          exact (hm4 _ rfl r hr).trans rfl

theorem drop_append_len {α : Type} (a b : List α) (k : Nat) :
    (a ++ b).drop (a.length + k) = b.drop k := by
  rw [← List.drop_drop, List.drop_left]

/-- Claim C8 (confirmed): category stickiness of `parse_text`.  For an input
whose lines split as pre ++ header :: post with no header line inside post,
every record the scan produces past those originating from pre carries the
header as its category; and when no header line occurs at all, every record
has category none. -/
theorem c8_category_sticky (pre post : List (List Char)) (hdr : List Char)
    (hh : isHeaderL (pyStripL hdr) = true)
    (hpost : ∀ l ∈ post, isHeaderL (pyStripL l) = false) :
    (∀ r ∈ (parse_text_lines (pre ++ hdr :: post)).drop (parse_text_lines pre).length,
        r.category = some (pyStripL hdr).asString) ∧
    ((∀ l ∈ pre, isHeaderL (pyStripL l) = false) →
      ∀ r ∈ parse_text_lines pre, r.category = none) := by
  constructor
  · intro r hr
    have hcl := classifyLineL_header hdr hh
    rcases foldl_no_header_decomp post (parseLine (List.foldl parseLine initParse pre) hdr)
      hpost with ⟨m, hm1, hm2, hm3, hm4⟩
    unfold parse_text_lines at hr
    rw [List.foldl_append, List.foldl_cons, hm1] at hr
    have hw : (parseLine (List.foldl parseLine initParse pre) hdr).words =
        (List.foldl parseLine initParse pre).words := by
      rw [parseLine, hcl]
      rfl
    rw [hw] at hr
    have hlen : (finalizeParse (List.foldl parseLine initParse pre)).length =
        (List.foldl parseLine initParse pre).words.length +
          flushCount (List.foldl parseLine initParse pre) := by
      rw [finalizeParse_eq, List.length_append, flushList_length]
    rw [hlen, drop_append_len] at hr
    have hfc : flushCount (parseLine (List.foldl parseLine initParse pre) hdr) =
        flushCount (List.foldl parseLine initParse pre) := by
      rw [parseLine, hcl]
      rfl
    rw [← hfc] at hr
    have hcat := hm3 r hr
    rw [hcat, parseLine, hcl]
    rfl
  · intro hpre r hr
    rcases foldl_no_header_decomp pre initParse hpre with ⟨m, hm1, hm2, hm3, hm4⟩
    unfold parse_text_lines at hr
    rw [hm1] at hr
    have hr' : r ∈ m.drop (flushCount initParse) := by
      simpa [initParse, flushCount] using hr
    exact (hm3 r hr').trans rfl

/-- Witness for C8: one record before the header, a header, one record plus
an example line after it. -/
theorem c8_witness :
    (∀ r ∈ (parse_text_lines (c8Pre ++ c8Hdr :: c8Post)).drop (parse_text_lines c8Pre).length,
        r.category = some (pyStripL c8Hdr).asString) ∧
    ((∀ l ∈ c8Pre, isHeaderL (pyStripL l) = false) →
      ∀ r ∈ parse_text_lines c8Pre, r.category = none) :=
  c8_category_sticky c8Pre c8Post c8Hdr (by decide) (by decide)

theorem reMatchWordL_head_digit (l : List Char)
    (g : List Char × List Char × List Char × List Char)
    (h : reMatchWordL l = some g) : ∃ c t, l = c :: t ∧ isDigitC c = true := by
  unfold reMatchWordL at h
  cases l with
  | nil => simp at h
  | cons c t =>
    by_cases hd : isDigitC c
    · exact ⟨c, t, rfl, hd⟩
    · simp only [List.takeWhile_cons] at h
      rw [Bool.not_eq_true] at hd
      simp [hd] at h

theorem digit_head_not_sep (c : Char) (t : List Char) (hd : isDigitC c = true) :
    isSepL (c :: t) = false := by
  have hcd : (c == '-') = false := by
    by_cases h : c = '-'
    · rw [h] at hd
      simp [isDigitC] at hd
    · simp [h]
  unfold isSepL
  simp [List.all_cons, hcd]

/-- Claim C5, counterexample: the same compressed single-line entry.  The
text parser splits its translation at the embedded case-insensitive `ex:`
into nativeText plus example, while the document parser keeps the whole
captured translation as nativeText and leaves the example absent — the two
parsers do NOT apply the same rule to this block. -/
theorem c5_counterexample :
    parse_document [c5Para] =
      [{ number := 1, english := "run", pronunciation := "ran"
         polish := "biegac ex: She runs.", exampleField := none, category := none }] ∧
    parse_text c5Para =
      [{ number := 1, english := "run", pronunciation := "ran", polish := "biegac"
         exampleField := some "She runs.", category := none }] := by
  decide

/-- Claim C5 (amended): `parse_document` never splits a captured translation
at an embedded `ex:`.  For any single newline-free paragraph that matches the
headword pattern and is not a category header, the resulting record stores
the whole captured translation (stripped) as nativeText with no example —
even when that translation contains `ex:`; only `parse_text` performs the
split. -/
theorem c5_document_no_split (p : String) (g1 g2 g3 g4 : List Char)
    (hm : reMatchWordL (pyStripL p.data) = some (g1, g2, g3, g4))
    (hh : isHeaderL (pyStripL p.data) = false)
    (hn : (pyStripL p.data).contains '\n' = false) :
    parse_document [p] =
      [{ number := natOfDigits g1, english := (pyStripL g2).asString
         pronunciation := (pyStripL g3).asString, polish := (pyStripL g4).asString
         exampleField := none, category := none }] := by
  rcases reMatchWordL_head_digit _ _ hm with ⟨c, t, hct, hd⟩
  rw [hct] at hm hh hn
  unfold parse_document
  rw [List.foldl_cons, List.foldl_nil]
  unfold parseDocPara
  simp only []
  rw [hct]
  simp at hn
  simp [hm, hh, hn, digit_head_not_sep c t hd, finalizeParse, flushList, initParse]

/-- Witness for C5: the amended theorem at the concrete compressed entry. -/
theorem c5_witness :
    parse_document [c5Para] =
      [{ number := natOfDigits ("1").data, english := (pyStripL ("run").data).asString
         pronunciation := (pyStripL ("ran").data).asString
         polish := (pyStripL ("biegac ex: She runs.").data).asString
         exampleField := none, category := none }] :=
  c5_document_no_split c5Para ("1").data ("run").data ("ran").data
    ("biegac ex: She runs.").data (by decide) (by decide) (by decide)

theorem containsL_append (a b : List Char) (x : Char) :
    (a ++ b).contains x = (a.contains x || b.contains x) := by
  induction a with
  | nil => simp [List.contains_cons]
  | cons c t ih => simp [List.contains_cons, ih, Bool.or_assoc]

theorem splitLinesL_no_newline : ∀ (l : List Char), l.contains '\n' = false →
    splitLinesL l = [l]
  | [], _ => rfl
  | c :: rest, h => by
    simp only [List.contains_cons] at h
    have hc : ¬ c = '\n' := by
      intro hc
      simp [hc] at h
    simp only [splitLinesL]
    rw [if_neg hc]
    rw [splitLinesL_no_newline rest (Bool.or_eq_false_iff.mp h).2]

theorem splitLinesL_append : ∀ (a b : List Char), a.contains '\n' = false →
    splitLinesL (a ++ '\n' :: b) = a :: splitLinesL b
  | [], b, _ => by simp [splitLinesL]
  | c :: rest, b, h => by
    simp only [List.contains_cons] at h
    have hc : ¬ c = '\n' := by
      intro hc
      simp [hc] at h
    have ih := splitLinesL_append rest b (Bool.or_eq_false_iff.mp h).2
    simp only [List.cons_append]
    simp only [splitLinesL]
    rw [if_neg hc, ih]

theorem pyStripL_no_trim (a : Char) (mid : List Char) (b : Char)
    (ha : isSpaceC a = false) (hb : isSpaceC b = false) :
    pyStripL (a :: (mid ++ [b])) = a :: (mid ++ [b]) := by
  unfold pyStripL
  rw [List.dropWhile_cons, if_neg (by simp [ha])]
  rw [List.reverse_cons, List.reverse_append]
  simp only [List.reverse_cons, List.reverse_nil, List.nil_append, List.singleton_append,
    List.cons_append]
  rw [List.dropWhile_cons, if_neg (by simp [hb])]
  simp

theorem pyStripL_space_prefix (c : Char) (l : List Char) (hc : isSpaceC c = true) :
    pyStripL (c :: l) = pyStripL l := by
  unfold pyStripL
  rw [List.dropWhile_cons, if_pos hc]

theorem pyStripL_star_line (e : List Char) :
    pyStripL (("   *ex: ").data ++ e ++ ['*']) =
      '*' :: (('e' :: 'x' :: ':' :: ' ' :: e) ++ ['*']) := by
  have h1 : (("   *ex: ").data ++ e ++ ['*']) =
      ' ' :: ' ' :: ' ' :: ('*' :: (('e' :: 'x' :: ':' :: ' ' :: e) ++ ['*'])) := rfl
  rw [h1, pyStripL_space_prefix (' ') _ rfl, pyStripL_space_prefix (' ') _ rfl,
    pyStripL_space_prefix (' ') _ rfl,
    pyStripL_no_trim ('*') ('e' :: 'x' :: ':' :: ' ' :: e) ('*') rfl rfl]

theorem classify_star_line (e : List Char) :
    classifyLineL (("   *ex: ").data ++ e ++ ['*']) = LineKind.skip := by
  unfold classifyLineL
  simp only []
  rw [pyStripL_star_line]
  simp [isSepL, pyIsUpperL, isHeaderL, reMatchWordL, exampleMatchL, startsWithExCIL,
    List.takeWhile_cons, List.all_cons, List.any_cons,
    (show isDigitC ('*') = false from rfl), (show Char.isAlpha ('e') = true from rfl),
    (show Char.isLower ('e') = true from rfl), (show Char.isLower ('*') = false from rfl)]

/-- Claim C7, counterexample: re-parsing the display rendering of one parsed
record does not recover its fields.  The headword comes back wrapped in the
bold markers and the example line (rendered with decoration) is not
recognized, so the example is lost. -/
theorem c7_counterexample :
    parse_text (format_words_for_display [c7Word]) =
      [{ number := 1, english := "**run**", pronunciation := "ran", polish := "biegac"
         exampleField := none, category := none }] ∧
    c7Word.english = ("run") ∧ c7Word.exampleField = some ("She runs.") ∧
    (("**run**" : String) ≠ ("run")) ∧
    ((none : Option String) ≠ some ("She runs.")) := by
  decide

/-- Claim C7 (amended): the display-format round trip recovers number,
pronunciation and nativeText, but the re-parsed targetText is the stored one
wrapped in literal bold markers, and the example — whatever newline-free
nonempty text it held — is dropped, because the rendered example line starts
with a decoration character no parser rule recognizes. -/
theorem c7_roundtrip_deviation (e : String) (hne : e ≠ "")
    (hn : e.data.contains '\n' = false) :
    parse_text (format_words_for_display
      [{ number := 1, english := "run", pronunciation := "ran", polish := "biegac"
         exampleField := some e, category := none }]) =
      [{ number := 1, english := "**run**", pronunciation := "ran", polish := "biegac"
         exampleField := none, category := none }] := by
  have hfmt : format_words_for_display
      [{ number := 1, english := "run", pronunciation := "ran", polish := "biegac"
         exampleField := some e, category := none }] =
      ("1. **run** (ran) – biegac") ++ ("\n") ++ (("   *ex: ") ++ e ++ ("*")) := by
    unfold format_words_for_display
    rw [List.foldl_cons, List.foldl_nil]
    simp only [addToGroups, List.map_cons, List.map_nil, groupLines, wordLines, exTruthy,
      List.flatten]
    have he' : (e != "") = true := by simp [hne]
    simp only [he', if_true, List.append_nil, List.nil_append, joinNL, Option.getD_some]
    congr 1
  rw [hfmt]
  unfold parse_text
  have hdata :
      (((("1. **run** (ran) – biegac") ++ ("\n") ++ (("   *ex: ") ++ e ++ ("*"))) : String).data)
        = ("1. **run** (ran) – biegac").data ++ '\n' ::
            (("   *ex: ").data ++ e.data ++ ['*']) := by
    simp
  rw [hdata]
  have hsh : ("1. **run** (ran) – biegac").data ++ '\n' ::
        (("   *ex: ").data ++ e.data ++ ['*']) =
      '1' :: (((". **run** (ran) – biegac").data ++ '\n' :: ("   *ex: ").data ++ e.data)
        ++ ['*']) := by
    simp
  have hstrip : pyStripL (("1. **run** (ran) – biegac").data ++ '\n' ::
        (("   *ex: ").data ++ e.data ++ ['*'])) =
      ("1. **run** (ran) – biegac").data ++ '\n' :: (("   *ex: ").data ++ e.data ++ ['*']) := by
    rw [hsh]
    exact pyStripL_no_trim ('1') _ ('*') rfl rfl
  rw [hstrip]
  have hl1 : (("1. **run** (ran) – biegac").data).contains '\n' = false := by decide
  rw [splitLinesL_append _ _ hl1]
  have hl2 : ((("   *ex: ").data ++ e.data ++ ['*'])).contains '\n' = false := by
    rw [containsL_append, containsL_append, hn]
    decide
  rw [splitLinesL_no_newline _ hl2]
  unfold parse_text_lines
  rw [List.foldl_cons, List.foldl_cons, List.foldl_nil]
  have hc1 : classifyLineL (("1. **run** (ran) – biegac").data) =
      LineKind.word 1 ("**run**") ("ran") ("biegac") none := by
    decide
  show finalizeParse (parseLine (parseLine initParse _) _) = _
  rw [parseLine, classify_star_line, parseLine, hc1]
  simp [applyLine, finalizeParse, flushList, initParse]

/-- Witness for C7: the deviation theorem at the concrete example text. -/
theorem c7_witness :
    parse_text (format_words_for_display
      [{ number := 1, english := "run", pronunciation := "ran", polish := "biegac"
         exampleField := some ("She runs."), category := none }]) =
      [{ number := 1, english := "**run**", pronunciation := "ran", polish := "biegac"
         exampleField := none, category := none }] :=
  c7_roundtrip_deviation ("She runs.") (by decide) (by decide)
